import Mathlib

/- Verification of the administrative-area reverse-geocoding service (main.go):
   GeoPackage envelope decoding (gpkgToWKB), candidate scanning (reverse),
   hierarchy level detection (detectLevel), children enumeration (childrenOf),
   coordinate rounding, and the elevation cache logic (handleLatlng,
   getElevation, saveElevation).  Machine integers are modelled as Nat/Int,
   bytes as Nat values, SQL NULL-able columns as Option String, and the
   float64 coordinates as exact rationals. -/

namespace AdminArea

/-- Interpretation of four bytes assembled into a Nat as a signed 32-bit
integer (Go's int32 conversion). -/
def toInt32 (n : Nat) : Int :=
  if n < 2147483648 then (n : Int) else (n : Int) - 4294967296

/-- Envelope element count for a 3-bit envelope-size indicator: the switch in
gpkgToWKB, main.go lines 127..138 (default branch yields 0). -/
def envCountOf : Nat → Nat
  | 0 => 0
  | 1 => 4
  | 2 => 6
  | 3 => 6
  | 4 => 8
  | _ => 0

/-- Magic check of gpkgToWKB, main.go line 121: first byte 'G' (71) and second
byte 'P' (80). -/
def hasMagic (b : List Nat) : Bool :=
  b.getD 0 0 == 71 && b.getD 1 0 == 80

/-- Envelope-size indicator: bits 1..3 of the flags byte b[3]
(main.go lines 124..125). -/
def envIndicator (b : List Nat) : Nat :=
  (b.getD 3 0 >>> 1) &&& 7

/-- Spatial-reference id resolution of main.go lines 139..144: read bytes 4..7
big- and little-endian; keep the big-endian value when it lies in [-1, 1000000],
else the little-endian value. -/
def sridOf (b : List Nat) : Int :=
  let srsBE := toInt32 (b.getD 4 0 * 16777216 + b.getD 5 0 * 65536 +
    b.getD 6 0 * 256 + b.getD 7 0)
  let srsLE := toInt32 (b.getD 7 0 * 16777216 + b.getD 6 0 * 65536 +
    b.getD 5 0 * 256 + b.getD 4 0)
  if srsBE < -1 ∨ srsBE > 1000000 then srsLE else srsBE

/-- Payload offset of main.go line 145: 8 header bytes plus 8 bytes per
envelope element. -/
def payloadOffset (b : List Nat) : Nat :=
  8 + envCountOf (envIndicator b) * 8

/-- GeoPackage binary to WKB payload: gpkgToWKB, main.go lines 117..150.
A blob shorter than 8 bytes is an error; a blob without the magic prefix is
returned whole with srid 0; otherwise the envelope is stripped, failing when
the blob has no byte at the payload offset. -/
def gpkgToWKB (b : List Nat) : Except String (List Nat × Int) :=
  if b.length < 8 then .error "geom too short"
  else if hasMagic b then
    if b.length < payloadOffset b + 1 then .error "invalid gpkg header/envelope"
    else .ok (b.drop (payloadOffset b), sridOf b)
  else .ok (b, 0)

/-- C4: for a magic-prefixed blob long enough to decode, an envelope-size
indicator in 0..4 yields element counts 0,4,6,6,8 and payload offsets
8,40,56,56,72, and the decoder returns the bytes from that offset onward. -/
theorem gpkg_envelope_offsets (b : List Nat) (ind : Nat)
    (hmagic : hasMagic b = true) (hind : envIndicator b = ind) (hle : ind ≤ 4)
    (hlen : 8 + envCountOf ind * 8 + 1 ≤ b.length) :
    envCountOf ind = [0, 4, 6, 6, 8].getD ind 0 ∧
    8 + envCountOf ind * 8 = [8, 40, 56, 56, 72].getD ind 0 ∧
    gpkgToWKB b = .ok (b.drop (8 + envCountOf ind * 8), sridOf b) := by
  have hoff : payloadOffset b = 8 + envCountOf ind * 8 := by
    simp [payloadOffset, hind]
  refine ⟨?_, ?_, ?_⟩
  · interval_cases ind <;> rfl
  · interval_cases ind <;> rfl
  · have h8 : ¬ b.length < 8 := by
      have : 8 + envCountOf ind * 8 + 1 ≤ b.length := hlen
      omega
    have hcut : ¬ b.length < payloadOffset b + 1 := by omega
    unfold gpkgToWKB
    rw [if_neg h8, if_pos hmagic, if_neg hcut, hoff]

/-- Concrete blob for the C4 witness: magic bytes, flags byte 2 (indicator 1,
four envelope elements), total length 41 = offset 40 plus one payload byte. -/
def gpkgEnvOne : List Nat := [71, 80, 0, 2] ++ List.replicate 37 0

/-- Witness for C4: the indicator-1 offsets realized on a concrete blob. -/
theorem gpkg_envelope_offsets_witness :
    envCountOf 1 = [0, 4, 6, 6, 8].getD 1 0 ∧
    8 + envCountOf 1 * 8 = [8, 40, 56, 56, 72].getD 1 0 ∧
    gpkgToWKB gpkgEnvOne = .ok (gpkgEnvOne.drop (8 + envCountOf 1 * 8), sridOf gpkgEnvOne) :=
  gpkg_envelope_offsets gpkgEnvOne 1 (by decide) (by decide) (by decide) (by decide)

/-- Counterexample blob for C5: magic-prefixed, indicator 0, length exactly 8,
so the payload offset equals the blob length. -/
def gpkgTruncated : List Nat := [71, 80, 0, 0, 0, 0, 0, 0]

/-- C5 counterexample: the decoder fails on a blob that is not shorter than 8
bytes and whose computed payload offset does not exceed the blob length (it
equals it), refuting the claimed exact error characterization. -/
theorem gpkg_error_at_offset_eq_length :
    gpkgToWKB gpkgTruncated = .error "invalid gpkg header/envelope" ∧
    hasMagic gpkgTruncated = true ∧
    ¬ gpkgTruncated.length < 8 ∧
    ¬ payloadOffset gpkgTruncated > gpkgTruncated.length := by
  exact ⟨rfl, rfl, by decide, by decide⟩

/-- C5 (amended): the decoder errors exactly when the blob is shorter than 8
bytes, or is magic-prefixed with no byte at the computed payload offset
(offset ≥ length); otherwise it succeeds, returning the whole blob for
non-magic blobs and the bytes from the payload offset onward for magic ones. -/
theorem gpkgToWKB_error_characterization (b : List Nat) :
    ((∃ e, gpkgToWKB b = .error e) ↔
      b.length < 8 ∨ (hasMagic b = true ∧ b.length ≤ payloadOffset b)) ∧
    (8 ≤ b.length → hasMagic b = false → gpkgToWKB b = .ok (b, 0)) ∧
    (8 ≤ b.length → hasMagic b = true → payloadOffset b < b.length →
      gpkgToWKB b = .ok (b.drop (payloadOffset b), sridOf b)) := by
  refine ⟨?_, ?_, ?_⟩
  · constructor
    · intro ⟨e, he⟩
      by_cases h8 : b.length < 8
      · exact Or.inl h8
      · by_cases hm : hasMagic b
        · by_cases hcut : b.length < payloadOffset b + 1
          · exact Or.inr ⟨hm, by omega⟩
          · simp [gpkgToWKB, h8, hm, hcut] at he
        · simp [gpkgToWKB, h8, hm] at he
    · intro h
      rcases h with h8 | ⟨hm, hcut⟩
      · exact ⟨"geom too short", by simp [gpkgToWKB, h8]⟩
      · by_cases h8 : b.length < 8
        · exact ⟨"geom too short", by simp [gpkgToWKB, h8]⟩
        · exact ⟨"invalid gpkg header/envelope",
            by simp [gpkgToWKB, h8, hm]; omega⟩
  · intro h8 hm
    simp [gpkgToWKB, hm, Nat.not_lt.mpr h8]
  · intro h8 hm hcut
    have : ¬ b.length < payloadOffset b + 1 := by omega
    simp [gpkgToWKB, hm, Nat.not_lt.mpr h8, this]

/-- C10: for a sufficiently long magic-prefixed blob whose indicator is 5, 6 or
7 (the default branch of the switch), the decoder treats the element count as 0
and returns the payload from offset 8, exactly as for indicator 0. -/
theorem gpkg_unmapped_indicator (b : List Nat) (hmagic : hasMagic b = true)
    (hind : 5 ≤ envIndicator b) (hlen : 9 ≤ b.length) :
    envCountOf (envIndicator b) = 0 ∧ payloadOffset b = 8 ∧
    gpkgToWKB b = .ok (b.drop 8, sridOf b) := by
  have hub : envIndicator b ≤ 7 := Nat.and_le_right
  have hcnt : envCountOf (envIndicator b) = 0 := by
    rcases Nat.lt_or_ge (envIndicator b) 6 with h | h
    · have : envIndicator b = 5 := by omega
      rw [this]; rfl
    · rcases Nat.lt_or_ge (envIndicator b) 7 with h7 | h7
      · have : envIndicator b = 6 := by omega
        rw [this]; rfl
      · have : envIndicator b = 7 := by omega
        rw [this]; rfl
  have hoff : payloadOffset b = 8 := by simp [payloadOffset, hcnt]
  have h8 : ¬ b.length < 8 := by omega
  have hcut : ¬ b.length < payloadOffset b + 1 := by omega
  refine ⟨hcnt, hoff, ?_⟩
  rw [← hoff]
  simp [gpkgToWKB, h8, hmagic, hcut]

/-- Concrete blob for the C10 witness: flags byte 10 gives indicator 5; one
payload byte after the 8-byte header. -/
def gpkgIndicatorFive : List Nat := [71, 80, 0, 10, 0, 0, 0, 0, 1]

/-- Witness for C10: an indicator-5 blob decodes like an indicator-0 blob. -/
theorem gpkg_unmapped_indicator_witness :
    envCountOf (envIndicator gpkgIndicatorFive) = 0 ∧
    payloadOffset gpkgIndicatorFive = 8 ∧
    gpkgToWKB gpkgIndicatorFive = .ok (gpkgIndicatorFive.drop 8, sridOf gpkgIndicatorFive) :=
  gpkg_unmapped_indicator gpkgIndicatorFive (by decide) (by decide) (by decide)

/-- Child entry of the JSON API: ChildrenItem, main.go lines 48..53. -/
structure ChildrenItem where
  gid : String
  name : String
  parentCode : String
  level : String
deriving DecidableEq

/-- Hierarchy chain response: AdminLevels, main.go lines 24..40. -/
structure AdminLevels where
  gid0 : String
  gid1 : String
  gid2 : String
  gid3 : String
  gid4 : String
  gid5 : String
  name0 : String
  name1 : String
  name2 : String
  name3 : String
  name4 : String
  name5 : String
  list : List ChildrenItem
deriving DecidableEq

/-- Level-name map of main.go lines 168..176; a Go map lookup at a missing key
(such as 5) yields the zero value, the empty string. -/
def levelNameMap : Nat → String
  | 0 => "LEVEL_UNSPECIFIED"
  | 1 => "PROVINCE"
  | 2 => "CITY"
  | 3 => "DISTRICT"
  | 4 => "VILLAGE"
  | _ => ""

/-- Candidate row scanned by reverse: the six GID columns, six NAME columns and
the geometry blob (main.go lines 190..198). -/
structure CandidateRow where
  g0 : String
  g1 : String
  g2 : String
  g3 : String
  g4 : String
  g5 : String
  n0 : String
  n1 : String
  n2 : String
  n3 : String
  n4 : String
  n5 : String
  blob : List Nat
deriving DecidableEq

/-- Chain construction loop of main.go lines 222..235: walk the (gid, name)
pairs with their level index, keep non-empty gids, thread the parent code. -/
def chainList : Nat → String → List (String × String) → List ChildrenItem
  | _, _, [] => []
  | i, parent, (gid, name) :: rest =>
    if gid ≠ "" then
      ⟨gid, name, parent, levelNameMap i⟩ :: chainList (i + 1) gid rest
    else
      chainList (i + 1) parent rest

/-- Pairs (GID_i, NAME_i) in level order, main.go lines 210..220. -/
def gidPairs (r : CandidateRow) : List (String × String) :=
  [(r.g0, r.n0), (r.g1, r.n1), (r.g2, r.n2), (r.g3, r.n3), (r.g4, r.n4), (r.g5, r.n5)]

/-- Successful reverse result for a matching candidate, main.go lines 236..240. -/
def buildAdminLevels (r : CandidateRow) : AdminLevels :=
  { gid0 := r.g0, gid1 := r.g1, gid2 := r.g2, gid3 := r.g3, gid4 := r.g4,
    gid5 := r.g5, name0 := r.n0, name1 := r.n1, name2 := r.n2, name3 := r.n3,
    name4 := r.n4, name5 := r.n5, list := chainList 0 "" (gidPairs r) }

/-- Go's math.Round: round half away from zero. -/
def goRound (x : ℚ) : Int :=
  if 0 ≤ x then ⌊x + 1 / 2⌋ else -⌊-x + 1 / 2⌋

/-- Coordinate rounding of main.go lines 180..182:
math.Round(x * 10^places) / 10^places, over exact rationals. -/
def roundTo (places : Nat) (x : ℚ) : ℚ :=
  (goRound (x * 10 ^ places) : ℚ) / 10 ^ places

/-- Candidate loop of reverse, main.go lines 190..242: strip the envelope
(continue on failure), parse the geometry (continue on failure; the external
WKB parser is a parameter decode), test containment at the rounded point
(a parameter standing for planar.MultiPolygonContains), return the first hit.
MP stands for the parsed MultiPolygon type. -/
def scanCandidates {MP : Type} (decode : List Nat → Option MP)
    (contains : MP → ℚ → ℚ → Bool) (rlon rlat : ℚ) :
    List CandidateRow → Option AdminLevels
  | [] => none
  | r :: rest =>
    match gpkgToWKB r.blob with
    | .error _ => scanCandidates decode contains rlon rlat rest
    | .ok (wkbBytes, _) =>
      match decode wkbBytes with
      | none => scanCandidates decode contains rlon rlat rest
      | some mp =>
        if contains mp rlon rlat then some (buildAdminLevels r)
        else scanCandidates decode contains rlon rlat rest

/-- Predicate equivalent of one iteration of the candidate loop: the candidate
decodes, parses and contains the rounded point. -/
def candidateMatches {MP : Type} (decode : List Nat → Option MP)
    (contains : MP → ℚ → ℚ → Bool) (rlon rlat : ℚ) (r : CandidateRow) : Bool :=
  match gpkgToWKB r.blob with
  | .error _ => false
  | .ok (wkbBytes, _) =>
    match decode wkbBytes with
    | none => false
    | some mp => contains mp rlon rlat

/-- Reverse lookup, main.go lines 179..247: round both coordinates, fetch the
candidate rows for the rounded point (db stands for the spatial-index query),
scan them, and fail with sql.ErrNoRows when no candidate contains the point. -/
def reverse {MP : Type} (db : ℚ → ℚ → List CandidateRow)
    (decode : List Nat → Option MP) (contains : MP → ℚ → ℚ → Bool)
    (roundPlaces : Nat) (lon lat : ℚ) : Except String AdminLevels :=
  let rlon := roundTo roundPlaces lon
  let rlat := roundTo roundPlaces lat
  match scanCandidates decode contains rlon rlat (db rlon rlat) with
  | some res => .ok res
  | none => .error "sql: no rows in result set"

/-- Scanning returns the first matching candidate of the list. -/
theorem scanCandidates_eq_find {MP : Type} (decode : List Nat → Option MP)
    (contains : MP → ℚ → ℚ → Bool) (rlon rlat : ℚ) (rows : List CandidateRow) :
    scanCandidates decode contains rlon rlat rows =
      (rows.find? (candidateMatches decode contains rlon rlat)).map buildAdminLevels := by
  induction rows with
  | nil => rfl
  | cons r rest ih =>
    rw [scanCandidates, List.find?]
    rcases hg : gpkgToWKB r.blob with e | ⟨wkbBytes, srid⟩
    · have hm : candidateMatches decode contains rlon rlat r = false := by
        simp [candidateMatches, hg]
      simp [hm, ih]
    · rcases hd : decode wkbBytes with _ | mp
      · have hm : candidateMatches decode contains rlon rlat r = false := by
          simp [candidateMatches, hg, hd]
        simp [hd, hm, ih]
      · rcases hc : contains mp rlon rlat with _ | _
        · have hm : candidateMatches decode contains rlon rlat r = false := by
            simp [candidateMatches, hg, hd, hc]
          simp [hd, hc, hm, ih]
        · have hm : candidateMatches decode contains rlon rlat r = true := by
            simp [candidateMatches, hg, hd, hc]
          simp [hd, hc, hm]

/-- Containment of a point in a MultiPolygon, planar.MultiPolygonContains of
the orb collaborator library called at main.go line 207: true when any polygon
of the collection contains the point (the per-polygon test polyContains stays
a parameter). -/
def multiPolygonContains {Poly : Type} (polyContains : Poly → ℚ → ℚ → Bool)
    (mp : List Poly) (x y : ℚ) : Bool :=
  mp.any fun pg => polyContains pg x y

/-- C1: reverse scans the candidate rows in the order received; a candidate
matches exactly when its geometry decodes, parses, and some polygon of its
MultiPolygon contains the rounded query point, so a candidate whose geometry
fails to decode or parse is skipped and scanning continues; the result is the
hierarchy chain of the first matching candidate, and sql.ErrNoRows exactly
when no candidate matches. -/
theorem reverse_scans_in_order {Poly : Type} (db : ℚ → ℚ → List CandidateRow)
    (decode : List Nat → Option (List Poly)) (polyContains : Poly → ℚ → ℚ → Bool)
    (p : Nat) (lon lat : ℚ) :
    (reverse db decode (multiPolygonContains polyContains) p lon lat =
      match (db (roundTo p lon) (roundTo p lat)).find?
          (candidateMatches decode (multiPolygonContains polyContains)
            (roundTo p lon) (roundTo p lat)) with
      | some r => .ok (buildAdminLevels r)
      | none => .error "sql: no rows in result set") ∧
    (∀ r : CandidateRow,
      candidateMatches decode (multiPolygonContains polyContains)
          (roundTo p lon) (roundTo p lat) r = true ↔
        ∃ w srid mp, gpkgToWKB r.blob = .ok (w, srid) ∧ decode w = some mp ∧
          ∃ pg ∈ mp, polyContains pg (roundTo p lon) (roundTo p lat) = true) ∧
    (reverse db decode (multiPolygonContains polyContains) p lon lat =
        .error "sql: no rows in result set" ↔
      ∀ r ∈ db (roundTo p lon) (roundTo p lat),
        candidateMatches decode (multiPolygonContains polyContains)
          (roundTo p lon) (roundTo p lat) r = false) := by
  have key := scanCandidates_eq_find decode (multiPolygonContains polyContains)
    (roundTo p lon) (roundTo p lat) (db (roundTo p lon) (roundTo p lat))
  refine ⟨?_, ?_, ?_⟩
  · rw [reverse, key]
    rcases (db (roundTo p lon) (roundTo p lat)).find?
        (candidateMatches decode (multiPolygonContains polyContains)
          (roundTo p lon) (roundTo p lat)) with _ | r
    · rfl
    · rfl
  · intro r
    unfold candidateMatches
    rcases hg : gpkgToWKB r.blob with e | ⟨w, srid⟩
    · simp
    · rcases hd : decode w with _ | mp
      · simp [hd]
      · simp only [hd]
        rw [multiPolygonContains, List.any_eq_true]
        constructor
        · rintro ⟨pg, hpg, hc⟩
          exact ⟨w, srid, mp, rfl, hd, pg, hpg, hc⟩
        · rintro ⟨w', srid', mp', hw, hmp, pg, hpg, hc⟩
          cases hw
          rw [hd] at hmp
          cases hmp
          exact ⟨pg, hpg, hc⟩
  · rw [reverse, key]
    rcases hf : (db (roundTo p lon) (roundTo p lat)).find?
        (candidateMatches decode (multiPolygonContains polyContains)
          (roundTo p lon) (roundTo p lat)) with _ | r
    · simp only [List.find?_eq_none] at hf
      refine iff_of_true rfl ?_
      intro r hr
      simpa using hf r hr
    · refine iff_of_false (by simp) ?_
      intro h
      have hp := List.find?_some hf
      have hmem := List.mem_of_find?_eq_some hf
      rw [h r hmem] at hp
      exact absurd hp (by simp)

/-- Rounding an integer (as a rational) is the identity. -/
theorem goRound_intCast (n : Int) : goRound (n : ℚ) = n := by
  unfold goRound
  have hfloor : (⌊(n : ℚ) + 1 / 2⌋ : Int) = n := by
    rw [Int.floor_eq_iff]
    constructor
    · linarith
    · have : ((n + 1 : Int) : ℚ) = (n : ℚ) + 1 := by push_cast; ring
      linarith [this]
  have hfloorneg : (⌊-(n : ℚ) + 1 / 2⌋ : Int) = -n := by
    rw [Int.floor_eq_iff]
    constructor
    · push_cast
      linarith
    · push_cast
      linarith
  by_cases h : (0 : ℚ) ≤ (n : ℚ)
  · rw [if_pos h, hfloor]
  · rw [if_neg h, hfloorneg, neg_neg]

/-- Rounding to a fixed number of places is idempotent over the rationals. -/
theorem roundTo_idem (p : Nat) (x : ℚ) : roundTo p (roundTo p x) = roundTo p x := by
  unfold roundTo
  have hpow : (10 : ℚ) ^ p ≠ 0 := by positivity
  rw [div_mul_cancel₀ _ hpow, goRound_intCast]

/-- C9: coordinate rounding is idempotent, and reverse lookup at an
already-rounded point returns the same result as at the unrounded point, for
every spatial index, geometry parser and containment test. -/
theorem rounding_idempotent_reverse (p : Nat) :
    (∀ x : ℚ, roundTo p (roundTo p x) = roundTo p x) ∧
    ∀ (MP : Type) (db : ℚ → ℚ → List CandidateRow)
      (decode : List Nat → Option MP) (contains : MP → ℚ → ℚ → Bool)
      (lon lat : ℚ),
      reverse db decode contains p (roundTo p lon) (roundTo p lat) =
        reverse db decode contains p lon lat := by
  refine ⟨roundTo_idem p, ?_⟩
  intro MP db decode contains lon lat
  unfold reverse
  rw [roundTo_idem, roundTo_idem]

/-- Elevation store: the elevations table keyed by gid (main.go lines 601..604),
modelled as an association list. -/
abbrev ElevStore := List (String × ℚ)

/-- Cache lookup of getElevation, main.go lines 480..484: SELECT elevation
FROM elevations WHERE gid = ?; none models sql.ErrNoRows. -/
def getElevation (st : ElevStore) (gid : String) : Option ℚ :=
  st.lookup gid

/-- Cache insert of saveElevation, main.go lines 486..489: INSERT INTO
elevations; a duplicate primary key makes the insert fail, which handleLatlng
logs and ignores, leaving the store unchanged. -/
def saveElevation (st : ElevStore) (gid : String) (v : ℚ) : ElevStore :=
  if (st.lookup gid).isSome then st else (gid, v) :: st

/-- Elevation resolution of handleLatlng, main.go lines 541..561, against the
pure store: on a hit return the cached value; on a miss call the provider
(fetch stands for fetchElevationFromGoogle), persisting and returning its value
on success and defaulting to 0 without persisting on failure.  Result:
(elevation, new store, whether the provider was invoked). -/
def elevationStep (st : ElevStore) (gid : String) (fetch : Except String ℚ) :
    ℚ × ElevStore × Bool :=
  match getElevation st gid with
  | some v => (v, st, false)
  | none =>
    match fetch with
    | .ok v => (v, saveElevation st gid v, true)
    | .error _ => (0, st, true)

/-- Outcome of the cache lookup as the sql layer reports it to handleLatlng:
a stored value, sql.ErrNoRows, or any other store error. -/
inductive CacheLookup where
  | hit (v : ℚ)
  | miss
  | storeErr (msg : String)
deriving DecidableEq

/-- HTTP response written by handleLatlng: a 200 success carrying the
elevation, the 404 branch, or the 500 branch. -/
inductive HttpResp where
  | success (elevation : ℚ)
  | notFound
  | internalError
deriving DecidableEq

/-- Node data produced by latlngOf before the elevation phase
(main.go lines 461..469). -/
structure LatlngStub where
  gid : String
  latitude : ℚ
  longitude : ℚ
deriving DecidableEq

/-- Outcome of latlngOf as handleLatlng classifies it (main.go lines 531..539):
an error whose message contains "gid not found" becomes 404, any other error
becomes 500. -/
inductive LatlngErr where
  | gidNotFound
  | other (msg : String)
deriving DecidableEq

/-- Response logic of handleLatlng, main.go lines 525..569: after a successful
latlngOf, the elevation phase always ends in a 200 success response — a cache
hit returns the stored value, a miss consults the provider (defaulting to 0 on
provider failure), and any other store error is logged and degraded to 0.
Second component: whether the external provider was invoked. -/
def handleLatlngElevation (latlng : Except LatlngErr LatlngStub)
    (cache : CacheLookup) (fetch : Except String ℚ) : HttpResp × Bool :=
  match latlng with
  | .error .gidNotFound => (.notFound, false)
  | .error (.other _) => (.internalError, false)
  | .ok _ =>
    match cache with
    | .hit v => (.success v, false)
    | .miss =>
      match fetch with
      | .ok v => (.success v, true)
      | .error _ => (.success 0, true)
    | .storeErr _ => (.success 0, false)

/-- C6 counterexample: on a store error during the cache lookup the handler
still answers 200 success with elevation 0 — it does not surface an internal
error as the claim states. -/
theorem store_error_not_surfaced :
    handleLatlngElevation (.ok ⟨"IDN", 0, 0⟩) (.storeErr "disk I/O error") (.ok 5) =
      (.success 0, false) ∧
    (handleLatlngElevation (.ok ⟨"IDN", 0, 0⟩) (.storeErr "disk I/O error") (.ok 5)).1 ≠
      .internalError := by
  exact ⟨rfl, by decide⟩

/-- C6 (amended): when the elevation cache lookup fails with a store error
(any error other than a cache miss), the request still succeeds: the error is
logged, the elevation degrades to the default 0, and the external provider is
not invoked. -/
theorem store_error_degrades_to_default (stub : LatlngStub) (msg : String)
    (fetch : Except String ℚ) :
    handleLatlngElevation (.ok stub) (.storeErr msg) fetch = (.success 0, false) := by
  rfl

/-- C7: on a cache miss with a failing provider call, the elevation defaults
to 0, the store is unchanged (nothing is persisted for the code), and the
provider was consulted. -/
theorem fetch_failure_not_persisted (st : ElevStore) (gid : String) (e : String)
    (hmiss : getElevation st gid = none) :
    elevationStep st gid (.error e) = (0, st, true) := by
  unfold elevationStep
  rw [hmiss]

/-- Witness for C7: a failed fetch on an empty store leaves it empty. -/
theorem fetch_failure_not_persisted_witness :
    elevationStep [] "IDN" (.error "network error") = (0, [], true) :=
  fetch_failure_not_persisted [] "IDN" "network error" rfl

/-- C8: after a successful fetch persisted the elevation for a code, a later
elevation step for that code returns the stored value from the cache and does
not invoke the provider, whatever the provider would now answer. -/
theorem cached_after_successful_fetch (st : ElevStore) (gid : String) (v : ℚ)
    (hmiss : getElevation st gid = none) (laterFetch : Except String ℚ) :
    elevationStep st gid (.ok v) = (v, (gid, v) :: st, true) ∧
    elevationStep ((elevationStep st gid (.ok v)).2.1) gid laterFetch =
      (v, (gid, v) :: st, false) := by
  have hsave : saveElevation st gid v = (gid, v) :: st := by
    unfold saveElevation
    rw [show st.lookup gid = none from hmiss]
    rfl
  have hfirst : elevationStep st gid (.ok v) = (v, (gid, v) :: st, true) := by
    unfold elevationStep
    rw [hmiss]
    simp only [hsave]
  refine ⟨hfirst, ?_⟩
  rw [hfirst]
  unfold elevationStep
  have hhit : getElevation ((gid, v) :: st) gid = some v := by
    simp [getElevation, List.lookup]
  rw [hhit]

/-- Witness for C8: a fetched elevation of 5 for code IDN is served from the
cache on the second step even though the provider would now fail. -/
theorem cached_after_successful_fetch_witness :
    elevationStep [] "IDN" (.ok 5) = (5, [("IDN", 5)], true) ∧
    elevationStep ((elevationStep [] "IDN" (.ok 5)).2.1) "IDN" (.error "down") =
      (5, [("IDN", 5)], false) :=
  cached_after_successful_fetch [] "IDN" 5 rfl (.error "down")

/-- Row of the region table: nullable code and name columns GID_0..GID_5 and
NAME_0..NAME_5 (main.go lines 56, 306..309; SQL NULL is none). -/
structure TableRow where
  gid0 : Option String
  gid1 : Option String
  gid2 : Option String
  gid3 : Option String
  gid4 : Option String
  gid5 : Option String
  name0 : Option String
  name1 : Option String
  name2 : Option String
  name3 : Option String
  name4 : Option String
  name5 : Option String
deriving DecidableEq

/-- Value of the level-indexed code column GID_lvl of a row. -/
def TableRow.gidAt (r : TableRow) : Nat → Option String
  | 0 => r.gid0
  | 1 => r.gid1
  | 2 => r.gid2
  | 3 => r.gid3
  | 4 => r.gid4
  | 5 => r.gid5
  | _ => none

/-- Value of the level-indexed name column NAME_lvl of a row. -/
def TableRow.nameAt (r : TableRow) : Nat → Option String
  | 0 => r.name0
  | 1 => r.name1
  | 2 => r.name2
  | 3 => r.name3
  | 4 => r.name4
  | 5 => r.name5
  | _ => none

/-- Probe of one level in detectLevel, main.go line 309: SELECT 1 FROM table
WHERE GID_lvl = ? LIMIT 1 succeeds exactly when some row carries the code in
that level column (SQL NULL never compares equal). -/
def levelHasGid (tbl : List TableRow) (lvl : Nat) (gid : String) : Bool :=
  tbl.any fun r => r.gidAt lvl == some gid

/-- Probe loop of detectLevel over a list of levels, main.go lines 307..319:
return the first probed level carrying the code, else the not-found error. -/
def detectLevelFrom (tbl : List TableRow) (gid : String) :
    List Nat → Except String Nat
  | [] => .error "gid not found in any level"
  | lvl :: rest =>
    if levelHasGid tbl lvl gid then .ok lvl
    else detectLevelFrom tbl gid rest

/-- Level detection, main.go lines 306..320: probe levels 0..5 in increasing
order. -/
def detectLevel (tbl : List TableRow) (gid : String) : Except String Nat :=
  detectLevelFrom tbl gid [0, 1, 2, 3, 4, 5]

/-- Probe loop characterization over a contiguous run of levels. -/
theorem detectLevelFrom_range (tbl : List TableRow) (gid : String) :
    ∀ (n k l : Nat),
      detectLevelFrom tbl gid (List.range' k n) = .ok l ↔
        (k ≤ l ∧ l < k + n ∧ levelHasGid tbl l gid = true ∧
          ∀ m, k ≤ m → m < l → levelHasGid tbl m gid = false) := by
  intro n
  induction n with
  | zero =>
    intro k l
    simp [List.range', detectLevelFrom]
    omega
  | succ n ih =>
    intro k l
    rw [List.range'_succ, detectLevelFrom]
    rcases hk : levelHasGid tbl k gid with _ | _
    · rw [if_neg (by simp [hk]), ih (k + 1) l]
      constructor
      · rintro ⟨h1, h2, h3, h4⟩
        refine ⟨by omega, by omega, h3, ?_⟩
        intro m hm1 hm2
        rcases Nat.eq_or_lt_of_le hm1 with rfl | hlt
        · exact hk
        · exact h4 m hlt hm2
      · rintro ⟨h1, h2, h3, h4⟩
        have hne : l ≠ k := by
          intro rfl_eq
          rw [rfl_eq] at h3
          rw [h3] at hk
          cases hk
        refine ⟨by omega, by omega, h3, ?_⟩
        intro m hm1 hm2
        exact h4 m (by omega) hm2
    · rw [if_pos (by simp [hk])]
      constructor
      · intro h
        have hl : l = k := by
          cases h
          rfl
        subst hl
        exact ⟨le_refl l, by omega, hk, fun m hm1 hm2 => absurd hm1 (by omega)⟩
      · rintro ⟨h1, h2, h3, h4⟩
        have hl : l = k := by
          by_contra hne
          have : levelHasGid tbl k gid = false := h4 k (le_refl k) (by omega)
          rw [this] at hk
          cases hk
        subst hl
        rfl

/-- Probe loop failure characterization: the not-found error appears exactly
when no probed level carries the code. -/
theorem detectLevelFrom_error (tbl : List TableRow) (gid : String) :
    ∀ ls : List Nat,
      detectLevelFrom tbl gid ls = .error "gid not found in any level" ↔
        ∀ lvl ∈ ls, levelHasGid tbl lvl gid = false := by
  intro ls
  induction ls with
  | nil => simp [detectLevelFrom]
  | cons lvl rest ih =>
    rw [detectLevelFrom]
    rcases hk : levelHasGid tbl lvl gid with _ | _
    · rw [if_neg (by simp [hk]), ih]
      simp [hk]
    · rw [if_pos (by simp [hk])]
      simp [hk]

/-- C2: detectLevel probes levels 0..5 in increasing order and returns the
first level whose code column carries the code; it fails with the not-found
error exactly when the code is absent at every level; and when the code exists
at two levels the lower one is always the result. -/
theorem detectLevel_first_level (tbl : List TableRow) (gid : String) :
    (∀ l, detectLevel tbl gid = .ok l ↔
      (l ≤ 5 ∧ levelHasGid tbl l gid = true ∧
        ∀ m < l, levelHasGid tbl m gid = false)) ∧
    (detectLevel tbl gid = .error "gid not found in any level" ↔
      ∀ l ≤ 5, levelHasGid tbl l gid = false) ∧
    (∀ l₁ l₂, l₁ < l₂ → levelHasGid tbl l₁ gid = true →
      detectLevel tbl gid ≠ .ok l₂) := by
  have hrange : ([0, 1, 2, 3, 4, 5] : List Nat) = List.range' 0 6 := by rfl
  have hok : ∀ l, detectLevel tbl gid = .ok l ↔
      (l ≤ 5 ∧ levelHasGid tbl l gid = true ∧
        ∀ m < l, levelHasGid tbl m gid = false) := by
    intro l
    rw [detectLevel, hrange, detectLevelFrom_range tbl gid 6 0 l]
    constructor
    · rintro ⟨h1, h2, h3, h4⟩
      exact ⟨by omega, h3, fun m hm => h4 m (by omega) hm⟩
    · rintro ⟨h1, h2, h3⟩
      exact ⟨by omega, by omega, h2, fun m _ hm => h3 m hm⟩
  refine ⟨hok, ?_, ?_⟩
  · rw [detectLevel, hrange, detectLevelFrom_error tbl gid]
    constructor
    · intro h l hl
      exact h l (by simp [List.mem_range']; omega)
    · intro h lvl hlvl
      simp [List.mem_range'] at hlvl
      exact h lvl (by omega)
  · intro l₁ l₂ hlt h1 hok₂
    rcases (hok l₂).mp hok₂ with ⟨_, _, hbelow⟩
    rw [hbelow l₁ hlt] at h1
    cases h1

/-- NOCASE string comparison of the ORDER BY clause in childrenOf
(main.go line 275): SQLite folds ASCII letters and compares; Lean's
Char.toLower likewise folds only ASCII uppercase letters. -/
def nocaseLe (a b : String) : Prop :=
  a.toLower ≤ b.toLower

instance : DecidableRel nocaseLe := fun a b =>
  inferInstanceAs (Decidable (a.toLower ≤ b.toLower))

/-- Order on a nullable name column under ORDER BY ... COLLATE NOCASE:
SQL NULL sorts before every string. -/
def sqlColLe : Option String → Option String → Prop
  | none, _ => True
  | some _, none => False
  | some a, some b => nocaseLe a b

instance : DecidableRel sqlColLe
  | none, _ => isTrue trivial
  | some _, none => isFalse fun h => h
  | some a, some b => inferInstanceAs (Decidable (nocaseLe a b))

/-- Row order produced by the childrenOf query: by the name column (second
component), NOCASE. -/
def sqlPairLe (a b : Option String × Option String) : Prop :=
  sqlColLe a.2 b.2

instance : DecidableRel sqlPairLe := fun a b =>
  inferInstanceAs (Decidable (sqlColLe a.2 b.2))

instance : IsTotal (Option String × Option String) sqlPairLe := by
  constructor
  intro a b
  rcases a with ⟨a1, a2⟩
  rcases b with ⟨b1, b2⟩
  rcases a2 with _ | x <;> rcases b2 with _ | y
  · exact Or.inl trivial
  · exact Or.inl trivial
  · exact Or.inr trivial
  · exact le_total x.toLower y.toLower

instance : IsTrans (Option String × Option String) sqlPairLe := by
  constructor
  intro a b c hab hbc
  rcases a with ⟨a1, a2⟩
  rcases b with ⟨b1, b2⟩
  rcases c with ⟨c1, c2⟩
  rcases a2 with _ | x <;> rcases b2 with _ | y <;> rcases c2 with _ | z <;>
    first
      | exact trivial
      | exact absurd hab (fun h => h)
      | exact absurd hbc (fun h => h)
      | exact le_trans hab hbc

/-- Rows matched by the childrenOf query before DISTINCT and ORDER BY
(main.go lines 270..276): rows whose GID_lvl column equals the parent code and
whose GID_(lvl+1) column is non-NULL, projected to the
(GID_(lvl+1), NAME_(lvl+1)) columns. -/
def childCandidates (tbl : List TableRow) (lvl : Nat) (code : String) :
    List (Option String × Option String) :=
  tbl.filterMap fun r =>
    if r.gidAt lvl = some code ∧ (r.gidAt (lvl + 1)).isSome = true then
      some (r.gidAt (lvl + 1), r.nameAt (lvl + 1))
    else none

/-- Result rows of the childrenOf query: SELECT DISTINCT deduplicates the
projected pairs, ORDER BY NAME COLLATE NOCASE sorts them (ties between equal
names are in an order SQLite leaves unspecified; one refinement is fixed
here). -/
def sqlChildrenQuery (tbl : List TableRow) (lvl : Nat) (code : String) :
    List (Option String × Option String) :=
  List.insertionSort sqlPairLe (childCandidates tbl lvl code).dedup

/-- Scan-loop body of childrenOf, main.go lines 285..298: keep rows whose gid
and name scanned non-NULL with a non-empty gid, tagging each with the parent
code and the inferred level name. -/
def rowToItem (parent : String) (lvl : Nat) :
    Option String × Option String → Option ChildrenItem
  | (some gid, some name) =>
    if 0 < gid.length then some ⟨gid, name, parent, levelNameMap (lvl + 1)⟩
    else none
  | _ => none

/-- Whitespace trimming at both ends of a string: strings.TrimSpace as used at
main.go line 251. -/
def trimSpace (s : String) : String :=
  ⟨((s.data.dropWhile Char.isWhitespace).reverse.dropWhile Char.isWhitespace).reverse⟩

/-- Children enumeration, main.go lines 250..303: trim the parent code, fail
when empty, detect its level, return the empty list at level 5, otherwise run
the query and the scan loop. -/
def childrenOf (tbl : List TableRow) (parentGID : String) :
    Except String (List ChildrenItem) :=
  if trimSpace parentGID = "" then .error "gid required"
  else
    match detectLevel tbl (trimSpace parentGID) with
    | .error e => .error e
    | .ok lvl =>
      if lvl = 5 then .ok []
      else .ok ((sqlChildrenQuery tbl lvl (trimSpace parentGID)).filterMap
        (rowToItem (trimSpace parentGID) lvl))

/-- Positivity of a string's length is non-emptiness. -/
theorem string_length_pos (s : String) : 0 < s.length ↔ s ≠ "" := by
  cases s with
  | mk data =>
    simp [String.length, List.length_pos, String.ext_iff]

/-- Inversion of the scan-loop body: a produced item fixes the source pair and
carries the parent code and inferred level. -/
theorem rowToItem_eq_some {parent : String} {lvl : Nat}
    {p : Option String × Option String} {it : ChildrenItem}
    (h : rowToItem parent lvl p = some it) :
    p = (some it.gid, some it.name) ∧ it.gid ≠ "" ∧
      it.parentCode = parent ∧ it.level = levelNameMap (lvl + 1) := by
  rcases p with ⟨g?, n?⟩
  rcases g? with _ | g <;> rcases n? with _ | n
  · simp [rowToItem] at h
  · simp [rowToItem] at h
  · simp [rowToItem] at h
  · simp only [rowToItem] at h
    split at h
    · rename_i hg
      cases h
      exact ⟨rfl, (string_length_pos g).mp hg, rfl, rfl⟩
    · cases h

/-- Membership in the pre-DISTINCT query rows. -/
theorem mem_childCandidates {tbl : List TableRow} {lvl : Nat} {code : String}
    {p : Option String × Option String} :
    p ∈ childCandidates tbl lvl code ↔
      ∃ r ∈ tbl, r.gidAt lvl = some code ∧ (r.gidAt (lvl + 1)).isSome = true ∧
        p = (r.gidAt (lvl + 1), r.nameAt (lvl + 1)) := by
  unfold childCandidates
  rw [List.mem_filterMap]
  constructor
  · rintro ⟨r, hr, hfr⟩
    by_cases hc : r.gidAt lvl = some code ∧ (r.gidAt (lvl + 1)).isSome = true
    · rw [if_pos hc] at hfr
      cases hfr
      exact ⟨r, hr, hc.1, hc.2, rfl⟩
    · rw [if_neg hc] at hfr
      cases hfr
  · rintro ⟨r, hr, h1, h2, rfl⟩
    exact ⟨r, hr, by rw [if_pos ⟨h1, h2⟩]⟩

/-- Sorting and deduplicating do not change membership. -/
theorem mem_sqlChildrenQuery {tbl : List TableRow} {lvl : Nat} {code : String}
    {p : Option String × Option String} :
    p ∈ sqlChildrenQuery tbl lvl code ↔ p ∈ childCandidates tbl lvl code := by
  unfold sqlChildrenQuery
  rw [(List.perm_insertionSort sqlPairLe _).mem_iff, List.mem_dedup]

/-- The query rows are distinct. -/
theorem sqlChildrenQuery_nodup (tbl : List TableRow) (lvl : Nat) (code : String) :
    (sqlChildrenQuery tbl lvl code).Nodup :=
  (List.perm_insertionSort sqlPairLe _).symm.nodup (List.nodup_dedup _)

/-- C3: for a code detected at level L below 5, childrenOf succeeds with
exactly the distinct (childCode, childName) pairs of rows whose GID_L column
equals the code and whose GID_(L+1) column is non-null and non-empty, sorted
case-insensitively by name, each tagged with the level-(L+1) name and the
queried code as parent; for a code at level 5 it returns the empty successful
result. -/
theorem childrenOf_spec (tbl : List TableRow) (code : String) (lvl : Nat)
    (htrim : trimSpace code = code) (hne : code ≠ "")
    (hlvl : detectLevel tbl code = .ok lvl) :
    (lvl = 5 → childrenOf tbl code = .ok []) ∧
    (lvl < 5 → ∃ items, childrenOf tbl code = .ok items ∧
      items.Pairwise (fun a b => nocaseLe a.name b.name) ∧
      (items.map fun it => (it.gid, it.name)).Nodup ∧
      (∀ g n, (g, n) ∈ (items.map fun it => (it.gid, it.name)) ↔
        (g ≠ "" ∧ ∃ r ∈ tbl, r.gidAt lvl = some code ∧
          r.gidAt (lvl + 1) = some g ∧ r.nameAt (lvl + 1) = some n)) ∧
      (∀ it ∈ items, it.parentCode = code ∧ it.level = levelNameMap (lvl + 1))) := by
  have hunfold : childrenOf tbl code =
      if lvl = 5 then .ok [] else
        .ok ((sqlChildrenQuery tbl lvl code).filterMap (rowToItem code lvl)) := by
    unfold childrenOf
    rw [htrim, if_neg hne, hlvl]
  refine ⟨?_, ?_⟩
  · intro h5
    rw [hunfold, if_pos h5]
  · intro h5
    rw [hunfold, if_neg (by omega : ¬ lvl = 5)]
    refine ⟨(sqlChildrenQuery tbl lvl code).filterMap (rowToItem code lvl),
      rfl, ?_, ?_, ?_, ?_⟩
    · have hsorted : (sqlChildrenQuery tbl lvl code).Pairwise sqlPairLe :=
        List.sorted_insertionSort sqlPairLe (childCandidates tbl lvl code).dedup
      refine List.pairwise_filterMap.mpr (hsorted.imp ?_)
      intro p q hpq it hit it' hit'
      rw [Option.mem_def] at hit hit'
      obtain ⟨hp, -, -, -⟩ := rowToItem_eq_some hit
      obtain ⟨hq, -, -, -⟩ := rowToItem_eq_some hit'
      rw [hp, hq] at hpq
      exact hpq
    · rw [List.map_filterMap]
      refine List.Nodup.filterMap ?_ (sqlChildrenQuery_nodup tbl lvl code)
      intro p p' b hb hb'
      rw [Option.mem_def, Option.map_eq_some'] at hb hb'
      obtain ⟨it, hit, hbit⟩ := hb
      obtain ⟨it', hit', hbit'⟩ := hb'
      obtain ⟨hp, -, -, -⟩ := rowToItem_eq_some hit
      obtain ⟨hp', -, -, -⟩ := rowToItem_eq_some hit'
      have hpair : (it.gid, it.name) = (it'.gid, it'.name) := by
        rw [hbit, ← hbit']
      rw [Prod.mk.injEq] at hpair
      rw [hp, hp', hpair.1, hpair.2]
    · intro g n
      rw [List.mem_map]
      constructor
      · rintro ⟨it, hit, hpair⟩
        rw [List.mem_filterMap] at hit
        obtain ⟨p, hpq, hrow⟩ := hit
        obtain ⟨hp, hgne, -, -⟩ := rowToItem_eq_some hrow
        rw [mem_sqlChildrenQuery, mem_childCandidates] at hpq
        obtain ⟨r, hr, hcode, -, hpeq⟩ := hpq
        rw [hp] at hpeq
        rw [Prod.mk.injEq] at hpeq hpair
        refine ⟨?_, r, hr, hcode, ?_, ?_⟩
        · rw [← hpair.1]
          exact hgne
        · rw [← hpeq.1, hpair.1]
        · rw [← hpeq.2, hpair.2]
      · rintro ⟨hgne, r, hr, hcode, hgid, hname⟩
        refine ⟨⟨g, n, code, levelNameMap (lvl + 1)⟩, ?_, rfl⟩
        rw [List.mem_filterMap]
        refine ⟨(some g, some n), ?_, ?_⟩
        · rw [mem_sqlChildrenQuery, mem_childCandidates]
          refine ⟨r, hr, hcode, by rw [hgid]; rfl, by rw [hgid, hname]⟩
        · simp only [rowToItem]
          rw [if_pos ((string_length_pos g).mpr hgne)]
    · intro it hit
      rw [List.mem_filterMap] at hit
      obtain ⟨p, -, hrow⟩ := hit
      obtain ⟨-, -, hpar, hlev⟩ := rowToItem_eq_some hrow
      exact ⟨hpar, hlev⟩

/-- Example rows for the C3 witness: two provinces of IDN with names in
reversed case-insensitive order. -/
def rowBali : TableRow :=
  ⟨some "IDN", some "IDN.1_1", none, none, none, none,
    some "Indonesia", some "bali", none, none, none, none⟩

/-- Second example row for the C3 witness. -/
def rowAceh : TableRow :=
  ⟨some "IDN", some "IDN.2_1", none, none, none, none,
    some "Indonesia", some "Aceh", none, none, none, none⟩

/-- Example table for the C3 witness. -/
def tblExample : List TableRow := [rowBali, rowAceh]

/-- Witness for C3: the characterization realized at a concrete two-row table
whose parent code IDN sits at level 0. -/
theorem childrenOf_spec_witness :
    ∃ items, childrenOf tblExample "IDN" = .ok items ∧
      items.Pairwise (fun a b => nocaseLe a.name b.name) ∧
      (items.map fun it => (it.gid, it.name)).Nodup ∧
      (∀ g n, (g, n) ∈ (items.map fun it => (it.gid, it.name)) ↔
        (g ≠ "" ∧ ∃ r ∈ tblExample, r.gidAt 0 = some "IDN" ∧
          r.gidAt (0 + 1) = some g ∧ r.nameAt (0 + 1) = some n)) ∧
      (∀ it ∈ items, it.parentCode = "IDN" ∧ it.level = levelNameMap (0 + 1)) :=
  (childrenOf_spec tblExample "IDN" 0 (by decide) (by decide) rfl).2 (by omega)

end AdminArea
